/-
  Verification of the parking-qr session/fee engine.

  Shallow embedding of `src/app.py` and `src/models.py`:
  * timestamps are rationals (seconds since an arbitrary epoch);
  * money and rates are rationals; Python's `round(x, 2)` is modelled by
    `round2` (round half to even, as Python's `round` does);
  * each Flask handler becomes a pure function from the database state
    (`DB`) and its request data to a response and (for mutating handlers)
    the new database state;
  * `datetime.fromisoformat` is passed in as an explicit parameter
    `fromiso : String -> Option ℚ` (parse failure = `none`), since the
    handlers only branch on whether parsing succeeds;
  * the unhandled `AttributeError` in `exit_parking` (dereferencing a
    missing rate) is modelled by the handler returning `none`.
-/
import Mathlib

set_option linter.unusedVariables false

/-- A JSON value as produced by `jsonify` in `app.py` (only the shapes the
handlers actually emit: strings, numbers, null). -/
inductive JVal
  | jstr (v : String)
  | jnum (v : ℚ)
  | jnull
  deriving DecidableEq, Repr

/-- An HTTP response: status code plus JSON object body (ordered key/value
pairs, as built by `jsonify({...})`). -/
structure HttpResp where
  status : ℕ
  body : List (String × JVal)
  deriving DecidableEq, Repr

/-- `models.py` `Rate`: a vehicle-type label with an hourly rate. -/
structure Rate where
  id : ℕ
  vehicle_type : String
  hourly_rate : ℚ
  deriving DecidableEq, Repr

/-- `models.py` `Session`: one parking occupancy.  `entry_time` is a
timestamp; `exit_time` and `amount_paid` are NULLable columns. -/
structure Session where
  token : String
  plate : String
  vehicle_type : String
  brand : Option String
  model : Option String
  color : Option String
  entry_time : ℚ
  exit_time : Option ℚ
  amount_paid : Option ℚ
  deriving DecidableEq, Repr

/-- The persistent state: the two SQLAlchemy tables, in insertion order. -/
structure DB where
  rates : List Rate
  sessions : List Session
  deriving DecidableEq, Repr

/-- JSON request body of `POST /api/entry`.  `brand`/`model`/`color` are
stored after `.strip() or None` normalisation, which we take as given. -/
structure EntryRequest where
  plate : Option String
  vehicle_type : Option String
  brand : Option String
  model : Option String
  color : Option String
  entry_time : Option String
  deriving DecidableEq, Repr

/-- Python truthiness test `not x` for an optional string: true when the
field is absent (`None`) or the empty string. -/
def pyFalsy (o : Option String) : Bool :=
  match o with
  | none => true
  | some s => s == ""

/-- Render an optional number the way `jsonify` renders a possibly-NULL
column. -/
def jopt (o : Option ℚ) : JVal :=
  match o with
  | none => JVal.jnull
  | some q => JVal.jnum q

/-- Round a rational to the nearest integer, ties to even — the rounding
used by Python's builtin `round`. -/
def roundHalfEven (q : ℚ) : ℤ :=
  if q - ⌊q⌋ < 1/2 then ⌊q⌋
  else if 1/2 < q - ⌊q⌋ then ⌊q⌋ + 1
  else if 2 ∣ ⌊q⌋ then ⌊q⌋ else ⌊q⌋ + 1

/-- Python's `round(q, 2)`. -/
def round2 (q : ℚ) : ℚ := (roundHalfEven (q * 100) : ℚ) / 100

/-- Calendar-date bucket of a timestamp (SQLite `func.date` /
`datetime.date()`): the day number containing the instant. -/
def dateOf (t : ℚ) : ℤ := ⌊t / 86400⌋

/-- `app.py` `get_active_sessions`: all sessions where exit_time IS NULL. -/
def get_active_sessions (db : DB) : List Session :=
  db.sessions.filter (fun s => s.exit_time.isNone)

/-- `app.py` `get_active_session_by_plate`: first active session with the
given plate. -/
def get_active_session_by_plate (db : DB) (plate : String) : Option Session :=
  (get_active_sessions db).find? (fun s => s.plate == plate)

/-- `app.py` `calculate_parking_fee`.  The Python default
`current_time=None` reads the wall clock; here the reference instant is
always passed explicitly. -/
def calculate_parking_fee (entry_time : ℚ) (hourly_rate : ℚ)
    (current_time : ℚ) : ℚ × ℚ :=
  let hours := (current_time - entry_time) / 3600
  let billable_hours := if hours < 1 then 1 else hours
  (round2 hours, round2 (billable_hours * hourly_rate))

/-- `app.py` `create_vehicle_type` (`POST /api/vehicle-types`).  `newId` is
the fresh primary key the database would assign. -/
def create_vehicle_type (db : DB) (vehicle_type : Option String)
    (hourly_rate : Option ℚ) (newId : ℕ) : HttpResp × DB :=
  if pyFalsy vehicle_type || hourly_rate.isNone then
    ({ status := 400, body := [("error", JVal.jstr "Missing required fields")] }, db)
  else
    match db.rates.find? (fun r => r.vehicle_type == vehicle_type.getD "") with
    | some _ =>
        ({ status := 400, body := [("error", JVal.jstr "Vehicle type already exists")] }, db)
    | none =>
        let r : Rate :=
          { id := newId, vehicle_type := vehicle_type.getD "",
            hourly_rate := hourly_rate.getD 0 }
        ({ status := 201,
           body := [("id", JVal.jnum r.id), ("vehicle_type", JVal.jstr r.vehicle_type),
                    ("hourly_rate", JVal.jnum r.hourly_rate)] },
         { db with rates := db.rates ++ [r] })

/-- `app.py` `update_vehicle_type` (`PUT /api/vehicle-types/<id>`). -/
def update_vehicle_type (db : DB) (id : ℕ) (new_vehicle_type : Option String)
    (new_hourly_rate : Option ℚ) : HttpResp × DB :=
  match db.rates.find? (fun r => r.id == id) with
  | none => ({ status := 404, body := [("error", JVal.jstr "Vehicle type not found")] }, db)
  | some rate =>
    let renames := !(pyFalsy new_vehicle_type) &&
      !(new_vehicle_type.getD "" == rate.vehicle_type)
    if renames &&
        (db.rates.find? (fun r => r.vehicle_type == new_vehicle_type.getD "")).isSome then
      ({ status := 400, body := [("error", JVal.jstr "Vehicle type already exists")] }, db)
    else
      let vt := if renames then new_vehicle_type.getD "" else rate.vehicle_type
      let hr := new_hourly_rate.getD rate.hourly_rate
      let rates := db.rates.map (fun r =>
        if r.id == id then { r with vehicle_type := vt, hourly_rate := hr } else r)
      ({ status := 200,
         body := [("id", JVal.jnum id), ("vehicle_type", JVal.jstr vt),
                  ("hourly_rate", JVal.jnum hr)] },
       { db with rates := rates })

/-- `app.py` `delete_vehicle_type` (`DELETE /api/vehicle-types/<id>`). -/
def delete_vehicle_type (db : DB) (id : ℕ) : HttpResp × DB :=
  match db.rates.find? (fun r => r.id == id) with
  | none => ({ status := 404, body := [("error", JVal.jstr "Vehicle type not found")] }, db)
  | some rate =>
    let active_sessions :=
      ((get_active_sessions db).filter (fun s => s.vehicle_type == rate.vehicle_type)).length
    if 0 < active_sessions then
      ({ status := 400, body := [("error", JVal.jstr "Cannot delete: active sessions exist")] }, db)
    else
      ({ status := 200, body := [("message", JVal.jstr "Vehicle type deleted successfully")] },
       { db with rates := db.rates.eraseP (fun r => r.id == id) })

/-- `app.py` `calculator_search` (`GET /api/calculator/search`).  Read-only. -/
def calculator_search (db : DB) (plate : Option String) (now : ℚ) : HttpResp :=
  if pyFalsy plate then
    { status := 400, body := [("error", JVal.jstr "Missing plate parameter")] }
  else
    match get_active_session_by_plate db (plate.getD "") with
    | none =>
        { status := 404, body := [("error", JVal.jstr "No active session found for this plate")] }
    | some session =>
      match db.rates.find? (fun r => r.vehicle_type == session.vehicle_type) with
      | none => { status := 500, body := [("error", JVal.jstr "Rate not found")] }
      | some rate =>
        let fee := calculate_parking_fee session.entry_time rate.hourly_rate now
        { status := 200,
          body := [("token", JVal.jstr session.token), ("plate", JVal.jstr session.plate),
                   ("vehicle_type", JVal.jstr session.vehicle_type),
                   ("entry_time", JVal.jnum session.entry_time),
                   ("duration_hours", JVal.jnum fee.1), ("amount", JVal.jnum fee.2)] }

/-- `app.py` `entry` (`POST /api/entry`).  `token` is the fresh UUID;
`fromiso` models `datetime.fromisoformat`; QR generation is external
output only. -/
def entry (fromiso : String → Option ℚ) (db : DB) (req : EntryRequest)
    (now : ℚ) (token : String) : HttpResp × DB :=
  if pyFalsy req.plate || pyFalsy req.vehicle_type then
    ({ status := 400, body := [("error", JVal.jstr "Missing data")] }, db)
  else
    let entry_time :=
      match req.entry_time with
      | some ts => if ts == "" then now else (fromiso ts).getD now
      | none => now
    let s : Session :=
      { token := token, plate := req.plate.getD "",
        vehicle_type := req.vehicle_type.getD "",
        brand := req.brand, model := req.model, color := req.color,
        entry_time := entry_time, exit_time := none, amount_paid := none }
    ({ status := 200,
       body := [("token", JVal.jstr token),
                ("qr_url", JVal.jstr ("/static/qrs/" ++ token ++ ".png"))] },
     { db with sessions := db.sessions ++ [s] })

/-- `app.py` `verify` (`GET /api/verify/<token>`).  Read-only. -/
def verify (db : DB) (token : String) (now : ℚ) : HttpResp :=
  match db.sessions.find? (fun s => s.token == token) with
  | none => { status := 404, body := [("error", JVal.jstr "Session not found")] }
  | some session =>
    if session.exit_time.isSome then
      { status := 400,
        body := [("error", JVal.jstr "Session already closed"),
                 ("amount_paid", jopt session.amount_paid)] }
    else
      match db.rates.find? (fun r => r.vehicle_type == session.vehicle_type) with
      | none => { status := 500, body := [("error", JVal.jstr "Rate not found")] }
      | some rate =>
        let fee := calculate_parking_fee session.entry_time rate.hourly_rate now
        { status := 200,
          body := [("plate", JVal.jstr session.plate),
                   ("entry_time", JVal.jnum session.entry_time),
                   ("duration_hours", JVal.jnum fee.1), ("amount", JVal.jnum fee.2),
                   ("vehicle_type", JVal.jstr session.vehicle_type)] }

/-- One row of `stats_by_type` in the dashboard response. -/
structure TypeStats where
  vehicle_type : String
  entries : ℕ
  exits : ℕ
  revenue : ℚ
  deriving DecidableEq, Repr

/-- The dashboard payload (`GET /api/dashboard`). -/
structure DashboardResult where
  date : ℤ
  entries_count : ℕ
  exits_count : ℕ
  total_revenue : ℚ
  active_vehicles : List Session
  stats_by_type : List TypeStats
  deriving DecidableEq, Repr

/-- Whether a session exited on the target calendar date
(`Session.exit_time.isnot(None)` and `func.date(exit_time) == target`). -/
def exitedOn (s : Session) (target : ℤ) : Bool :=
  match s.exit_time with
  | some t => dateOf t == target
  | none => false

/-- `app.py` `dashboard` (`GET /api/dashboard`), after the
`strptime(date, c)` guard: `target` is the parsed calendar date.  SQL
`sum` skips NULLs (`amount_paid.getD 0`) and returns NULL on no rows
(empty-list sum is 0, matching `or 0.0`). -/
def dashboard (db : DB) (target : ℤ) : DashboardResult :=
  let entries_count :=
    (db.sessions.filter (fun s => dateOf s.entry_time == target)).length
  let exits_count := (db.sessions.filter (fun s => exitedOn s target)).length
  let total_revenue := round2
    (((db.sessions.filter (fun s => exitedOn s target)).map
        (fun s => s.amount_paid.getD 0)).sum)
  let all_vehicle_types := (db.sessions.map (fun s => s.vehicle_type)).dedup
  let stats_by_type := all_vehicle_types.filterMap (fun vtype =>
    let type_entries := (db.sessions.filter
      (fun s => s.vehicle_type == vtype && dateOf s.entry_time == target)).length
    let type_exits := (db.sessions.filter
      (fun s => s.vehicle_type == vtype && exitedOn s target)).length
    let type_revenue := round2
      (((db.sessions.filter (fun s => s.vehicle_type == vtype && exitedOn s target)).map
          (fun s => s.amount_paid.getD 0)).sum)
    if 0 < type_entries || 0 < type_exits then
      some { vehicle_type := vtype, entries := type_entries, exits := type_exits,
             revenue := type_revenue }
    else none)
  { date := target, entries_count := entries_count, exits_count := exits_count,
    total_revenue := total_revenue, active_vehicles := get_active_sessions db,
    stats_by_type := stats_by_type }

/-- `app.py` `update_session` (`PUT /api/sessions/<token>`): edit the entry
time of an open session. -/
def update_session (fromiso : String → Option ℚ) (db : DB) (token : String)
    (new_entry_time : Option String) (now : ℚ) : HttpResp × DB :=
  match db.sessions.find? (fun s => s.token == token) with
  | none => ({ status := 404, body := [("error", JVal.jstr "Session not found")] }, db)
  | some session =>
    if session.exit_time.isSome then
      ({ status := 400, body := [("error", JVal.jstr "Cannot edit closed session")] }, db)
    else if pyFalsy new_entry_time then
      ({ status := 400, body := [("error", JVal.jstr "Missing entry_time")] }, db)
    else
      match fromiso (new_entry_time.getD "") with
      | none => ({ status := 400, body := [("error", JVal.jstr "Invalid date format")] }, db)
      | some parsed_time =>
        if now < parsed_time then
          ({ status := 400,
             body := [("error", JVal.jstr "Entry time cannot be in the future")] }, db)
        else
          let sessions := db.sessions.map (fun s =>
            if s.token == token then { s with entry_time := parsed_time } else s)
          ({ status := 200,
             body := [("token", JVal.jstr token), ("plate", JVal.jstr session.plate),
                      ("entry_time", JVal.jnum parsed_time),
                      ("message", JVal.jstr "Entry time updated")] },
           { db with sessions := sessions })

/-- `app.py` `exit_parking` (`POST /api/exit`).  Returns `none` on the
unhandled `AttributeError`: the rate lookup is dereferenced
(`rate.hourly_rate`) without a `None` check, so a session whose vehicle
type has no rate crashes the handler before any ledger write. -/
def exit_parking (db : DB) (token : String) (now : ℚ) : Option (HttpResp × DB) :=
  match db.sessions.find? (fun s => s.token == token) with
  | none => some ({ status := 404, body := [("error", JVal.jstr "Session not found")] }, db)
  | some session =>
    if session.exit_time.isSome then
      some ({ status := 400, body := [("error", JVal.jstr "Session already closed")] }, db)
    else
      match db.rates.find? (fun r => r.vehicle_type == session.vehicle_type) with
      | none => none
      | some rate =>
        let amount := (calculate_parking_fee session.entry_time rate.hourly_rate now).2
        let sessions := db.sessions.map (fun s =>
          if s.token == token then
            { s with exit_time := some now, amount_paid := some amount }
          else s)
        some ({ status := 200,
                body := [("message", JVal.jstr "Exit confirmed"),
                         ("amount_paid", JVal.jnum amount)] },
              { db with sessions := sessions })

/-- The state after the startup block of `app.py`: the two seeded rates and
no sessions. -/
def initialDB : DB :=
  { rates := [{ id := 1, vehicle_type := "Auto", hourly_rate := 20 },
              { id := 2, vehicle_type := "Moto", hourly_rate := 10 }],
    sessions := [] }

/-- One mutating request.  `entry` carries the freshness of the generated
UUID token (enforced in the real system by the primary-key constraint). -/
inductive Step : DB → DB → Prop
  | entry (fromiso : String → Option ℚ) (db : DB) (req : EntryRequest)
      (now : ℚ) (token : String)
      (hfresh : ∀ s ∈ db.sessions, s.token ≠ token) :
      Step db (entry fromiso db req now token).2
  | update_session (fromiso : String → Option ℚ) (db : DB) (token : String)
      (new_entry_time : Option String) (now : ℚ) :
      Step db (update_session fromiso db token new_entry_time now).2
  | exit_parking (db : DB) (token : String) (now : ℚ) (resp : HttpResp) (db' : DB)
      (h : exit_parking db token now = some (resp, db')) :
      Step db db'
  | create_vehicle_type (db : DB) (vt : Option String) (hr : Option ℚ) (newId : ℕ) :
      Step db (create_vehicle_type db vt hr newId).2
  | update_vehicle_type (db : DB) (id : ℕ) (vt : Option String) (hr : Option ℚ) :
      Step db (update_vehicle_type db id vt hr).2
  | delete_vehicle_type (db : DB) (id : ℕ) :
      Step db (delete_vehicle_type db id).2

/-- Ledger states reachable from startup by any sequence of requests. -/
def Reachable (db : DB) : Prop := Relation.ReflTransGen Step initialDB db

/-! ### Rounding lemmas -/

theorem roundHalfEven_intCast (n : ℤ) : roundHalfEven (n : ℚ) = n := by
  unfold roundHalfEven
  rw [Int.floor_intCast]
  norm_num

theorem roundHalfEven_nonpos {q : ℚ} (h : q < 0) : roundHalfEven q ≤ 0 := by
  have hf : (⌊q⌋ : ℚ) ≤ q := Int.floor_le q
  have hf0 : ⌊q⌋ < 0 := by exact_mod_cast lt_of_le_of_lt hf h
  unfold roundHalfEven
  split_ifs <;> omega

theorem roundHalfEven_neg {q : ℚ} (h : q < -(1/2)) : roundHalfEven q < 0 := by
  have hf : (⌊q⌋ : ℚ) ≤ q := Int.floor_le q
  have hq0 : q < 0 := lt_trans h (by norm_num)
  have hf0 : ⌊q⌋ < 0 := by exact_mod_cast lt_of_le_of_lt hf hq0
  unfold roundHalfEven
  split_ifs with h1 h2 h3
  · exact hf0
  · have hle : (1/2 : ℚ) ≤ q - ⌊q⌋ := le_of_lt h2
    have : (⌊q⌋ : ℚ) < -1 := by linarith
    have : ⌊q⌋ < -1 := by exact_mod_cast this
    omega
  · exact hf0
  · have hle : (1/2 : ℚ) ≤ q - ⌊q⌋ := le_of_not_lt h1
    have : (⌊q⌋ : ℚ) < -1 := by linarith
    have : ⌊q⌋ < -1 := by exact_mod_cast this
    omega

theorem round2_nonpos {q : ℚ} (h : q < 0) : round2 q ≤ 0 := by
  unfold round2
  have h100 : q * 100 < 0 := mul_neg_of_neg_of_pos h (by norm_num)
  have := roundHalfEven_nonpos h100
  have hcast : (roundHalfEven (q * 100) : ℚ) ≤ 0 := by exact_mod_cast this
  exact div_nonpos_of_nonpos_of_nonneg hcast (by norm_num)

theorem round2_neg {q : ℚ} (h : q < -(1/200)) : round2 q < 0 := by
  unfold round2
  have h100 : q * 100 < -(1/2) := by linarith
  have := roundHalfEven_neg h100
  have hcast : (roundHalfEven (q * 100) : ℚ) < 0 := by exact_mod_cast this
  exact div_neg_of_neg_of_pos hcast (by norm_num)

/-- A rational is a whole number of cents (every stored `amount_paid` is,
because `exit_parking` stores a `round(_, 2)` result). -/
def IsCents (q : ℚ) : Prop := (q * 100).den = 1

instance (q : ℚ) : Decidable (IsCents q) := by
  unfold IsCents; infer_instance

theorem isCents_iff {q : ℚ} : IsCents q ↔ ∃ n : ℤ, q * 100 = (n : ℚ) := by
  unfold IsCents
  constructor
  · intro h
    exact ⟨(q * 100).num, ((Rat.den_eq_one_iff _).mp h).symm⟩
  · rintro ⟨n, hn⟩
    rw [hn]
    exact Rat.den_intCast n

theorem isCents_zero : IsCents 0 := by
  unfold IsCents
  norm_num

theorem isCents_add {a b : ℚ} (ha : IsCents a) (hb : IsCents b) : IsCents (a + b) := by
  rcases isCents_iff.mp ha with ⟨n, hn⟩
  rcases isCents_iff.mp hb with ⟨m, hm⟩
  refine isCents_iff.mpr ⟨n + m, ?_⟩
  push_cast
  rw [add_mul, hn, hm]

theorem isCents_sum {L : List ℚ} (h : ∀ x ∈ L, IsCents x) : IsCents L.sum := by
  induction L with
  | nil => simpa using isCents_zero
  | cons a L ih =>
    rw [List.sum_cons]
    exact isCents_add (h a (List.mem_cons_self a L))
      (ih (fun x hx => h x (List.mem_cons_of_mem a hx)))

theorem round2_eq_self_of_isCents {q : ℚ} (h : IsCents q) : round2 q = q := by
  rcases isCents_iff.mp h with ⟨n, hn⟩
  unfold round2
  rw [hn, roundHalfEven_intCast, ← hn]
  field_simp

theorem round2_zero : round2 0 = 0 :=
  round2_eq_self_of_isCents isCents_zero

theorem round2_intCast (n : ℤ) : round2 (n : ℚ) = n := by
  apply round2_eq_self_of_isCents
  exact isCents_iff.mpr ⟨n * 100, by push_cast; ring⟩

/-! ### C1: billing floor of the fee calculator -/

/-- C1: for every entryTime, non-negative hourlyRate and reference time
`now`, the fee amount obeys the billing floor: elapsed < 1 hour charges
`round2 hourlyRate` (the full first hour), elapsed ≥ 1 hour charges
`round2 (elapsedHours * hourlyRate)` with no further rounding of the
hours. -/
theorem C1_billing_floor (entry_time hourly_rate now : ℚ) (h : 0 ≤ hourly_rate) :
    ((now - entry_time) / 3600 < 1 →
      (calculate_parking_fee entry_time hourly_rate now).2 = round2 hourly_rate) ∧
    (1 ≤ (now - entry_time) / 3600 →
      (calculate_parking_fee entry_time hourly_rate now).2
        = round2 ((now - entry_time) / 3600 * hourly_rate)) := by
  constructor
  · intro hlt
    simp only [calculate_parking_fee, if_pos hlt, one_mul]
  · intro hge
    have hnot : ¬((now - entry_time) / 3600 < 1) := not_lt.mpr hge
    simp only [calculate_parking_fee, if_neg hnot]

/-- Witness for C1 at entryTime 0, rate 20, now 1800 (a 30-minute stay). -/
theorem C1_billing_floor_witness :
    ((1800:ℚ) - 0) / 3600 < 1 ∧ (calculate_parking_fee 0 20 1800).2 = round2 20 :=
  ⟨by norm_num, (C1_billing_floor 0 20 1800 (by norm_num)).1 (by norm_num)⟩

/-! ### C2: closing an already-closed session fails without mutation -/

/-- C2: invoking Close on a token whose session is already closed fails
with the already-closed error and returns the ledger completely
unchanged (hence that session's exitTime/amountPaid and every other
session are untouched). -/
theorem C2_close_already_closed (db : DB) (token : String) (now t : ℚ) (s : Session)
    (hfind : db.sessions.find? (fun x => x.token == token) = some s)
    (hclosed : s.exit_time = some t) :
    exit_parking db token now =
      some ({ status := 400, body := [("error", JVal.jstr "Session already closed")] }, db) := by
  unfold exit_parking
  rw [hfind]
  simp [hclosed]

/-- A closed session and a ledger containing it, used as concrete input. -/
def sessC : Session :=
  { token := "tc", plate := "AAA", vehicle_type := "Auto", brand := none, model := none,
    color := none, entry_time := 0, exit_time := some 3600, amount_paid := some 45 }

/-- Ledger holding only the closed session `sessC`. -/
def dbClosed : DB := { rates := initialDB.rates, sessions := [sessC] }

/-- Witness for C2 on the concrete ledger `dbClosed`. -/
theorem C2_close_already_closed_witness :
    exit_parking dbClosed "tc" 7200 =
      some ({ status := 400, body := [("error", JVal.jstr "Session already closed")] },
            dbClosed) :=
  C2_close_already_closed dbClosed "tc" 7200 3600 sessC (by simp [dbClosed, sessC]) rfl

/-! ### C3: where the frozen amount appears on the already-closed failure -/

/-- C3 counterexample: on the concrete ledger `dbClosed` the closed session
has frozen `amount_paid = 45`, the Close (exit) call on its token fails
with status 400, yet the failure body carries no `amount_paid` key — the
claim that Close's failure response includes the frozen amount is false. -/
theorem C3_counterexample :
    sessC.amount_paid = some 45 ∧
    (exit_parking dbClosed "tc" 7200).map (fun p => p.1.status) = some 400 ∧
    (exit_parking dbClosed "tc" 7200).map (fun p => p.1.body.lookup "amount_paid")
      = some none := by
  refine ⟨rfl, ?_, ?_⟩ <;> simp [exit_parking, dbClosed, sessC, List.lookup]

/-- C3 amended: closing an already-closed session fails with only the error
message (no frozen amount in the body); the previously frozen amountPaid
is instead included in the already-closed failure response of the
preview-fee-by-token (verify) operation. -/
theorem C3_frozen_amount_in_verify (db : DB) (token : String) (now t : ℚ) (s : Session)
    (hfind : db.sessions.find? (fun x => x.token == token) = some s)
    (hclosed : s.exit_time = some t) :
    (exit_parking db token now).map (fun p => p.1.body.lookup "amount_paid") = some none ∧
    (verify db token now).body.lookup "amount_paid" = some (jopt s.amount_paid) := by
  constructor
  · unfold exit_parking
    rw [hfind]
    simp [hclosed, List.lookup]
  · unfold verify
    rw [hfind]
    simp [hclosed, List.lookup]

/-- Witness for the amended C3 on the concrete ledger `dbClosed`. -/
theorem C3_frozen_amount_in_verify_witness :
    (exit_parking dbClosed "tc" 7200).map (fun p => p.1.body.lookup "amount_paid")
        = some none ∧
    (verify dbClosed "tc" 7200).body.lookup "amount_paid" = some (jopt sessC.amount_paid) :=
  C3_frozen_amount_in_verify dbClosed "tc" 7200 3600 sessC (by simp [dbClosed, sessC]) rfl

/-! ### C4: missing rate at fee-calculation time -/

/-- An open session whose vehicle type has no rate record. -/
def sessNoRate : Session :=
  { token := "t4", plate := "XYZ", vehicle_type := "Truck", brand := none, model := none,
    color := none, entry_time := 0, exit_time := none, amount_paid := none }

/-- Ledger with the rateless open session. -/
def dbNoRate : DB := { rates := initialDB.rates, sessions := [sessNoRate] }

/-- The entry request producing `sessNoRate` (nothing validates that the
vehicle type has a rate record). -/
def reqNoRate : EntryRequest :=
  { plate := some "XYZ", vehicle_type := some "Truck", brand := none, model := none,
    color := none, entry_time := none }

theorem reachable_dbNoRate : Reachable dbNoRate := by
  have h := Step.entry (fun _ => none) initialDB reqNoRate 0 "t4"
    (by intro s hs; cases hs)
  have he : (entry (fun _ => none) initialDB reqNoRate 0 "t4").2 = dbNoRate := by
    simp [entry, reqNoRate, pyFalsy, initialDB, dbNoRate, sessNoRate]
  rw [he] at h
  exact Relation.ReflTransGen.single h

/-- C4: the rateless open session is reachable (entry never validates the
vehicle type against the rate table); on it the two preview operations
report the handled internal-consistency failure (500, "Rate not found"),
but Close (exit) does not: it hits the unhandled `AttributeError`
(`rate.hourly_rate` on `None`), modelled by `none` — the crash still
happens before any ledger write. -/
theorem C4_missing_rate_divergence :
    Reachable dbNoRate ∧
    verify dbNoRate "t4" 3600
        = { status := 500, body := [("error", JVal.jstr "Rate not found")] } ∧
    calculator_search dbNoRate (some "XYZ") 3600
        = { status := 500, body := [("error", JVal.jstr "Rate not found")] } ∧
    exit_parking dbNoRate "t4" 3600 = none := by
  refine ⟨reachable_dbNoRate, ?_, ?_, ?_⟩ <;>
    simp [verify, calculator_search, exit_parking, dbNoRate, sessNoRate, initialDB,
      get_active_session_by_plate, get_active_sessions, pyFalsy]

/-! ### C9: unparseable explicit entryTime falls back to now -/

/-- C9: an Open (entry) request with non-empty plate and vehicleType and an
explicit entryTime string that fails to parse still succeeds, creating
the session with entryTime = the current time. -/
theorem C9_unparseable_entry_time (fromiso : String → Option ℚ) (db : DB)
    (req : EntryRequest) (now : ℚ) (token : String) (p vt ts : String)
    (hp : req.plate = some p) (hpne : p ≠ "")
    (hv : req.vehicle_type = some vt) (hvne : vt ≠ "")
    (hts : req.entry_time = some ts) (hparse : fromiso ts = none) :
    entry fromiso db req now token =
      ({ status := 200,
         body := [("token", JVal.jstr token),
                  ("qr_url", JVal.jstr ("/static/qrs/" ++ token ++ ".png"))] },
       { db with sessions := db.sessions ++
           [{ token := token, plate := p, vehicle_type := vt,
              brand := req.brand, model := req.model, color := req.color,
              entry_time := now, exit_time := none, amount_paid := none }] }) := by
  unfold entry
  rw [hp, hv, hts]
  simp [pyFalsy, hpne, hvne, hparse]

/-- Witness for C9: a concrete request with unparseable entryTime "xx". -/
theorem C9_unparseable_entry_time_witness :
    entry (fun _ => none) initialDB
        { plate := some "AAA", vehicle_type := some "Auto", brand := none,
          model := none, color := none, entry_time := some "xx" } 500 "t9" =
      ({ status := 200,
         body := [("token", JVal.jstr "t9"),
                  ("qr_url", JVal.jstr ("/static/qrs/" ++ "t9" ++ ".png"))] },
       { initialDB with sessions := initialDB.sessions ++
           [{ token := "t9", plate := "AAA", vehicle_type := "Auto",
              brand := none, model := none, color := none,
              entry_time := 500, exit_time := none, amount_paid := none }] }) :=
  C9_unparseable_entry_time (fun _ => none) initialDB
    { plate := some "AAA", vehicle_type := some "Auto", brand := none,
      model := none, color := none, entry_time := some "xx" }
    500 "t9" "AAA" "Auto" "xx" rfl (by simp) rfl (by simp) rfl rfl

/-! ### C10: future entryTime (negative elapsed time) -/

/-- C10 counterexample: entryTime 1 second after `now` (entry 1, now 0,
rate 20) gives durationHours = round2(-1/3600) = 0, which is not
negative, refuting the claim that every future entryTime yields a
negative durationHours (the first-hour amount 20 is still charged). -/
theorem C10_counterexample :
    ((0:ℚ) < 1) ∧
    (calculate_parking_fee 1 20 0).1 = 0 ∧
    ¬ ((calculate_parking_fee 1 20 0).1 < 0) ∧
    (calculate_parking_fee 1 20 0).2 = 20 := by
  have hh : ((0:ℚ) - 1) / 3600 = -(1/3600) := by norm_num
  have hfloor : ⌊(-(1/3600) : ℚ) * 100⌋ = -1 := by
    rw [Int.floor_eq_iff]
    norm_num
  have hdur : (calculate_parking_fee 1 20 0).1 = 0 := by
    simp only [calculate_parking_fee, hh]
    unfold round2 roundHalfEven
    rw [hfloor]
    norm_num
  have hamt : (calculate_parking_fee 1 20 0).2 = 20 := by
    have hlt : (-(1/3600) : ℚ) < 1 := by norm_num
    simp only [calculate_parking_fee, hh, if_pos hlt, one_mul]
    have : ((20:ℚ)) = ((20:ℤ) : ℚ) := by norm_num
    rw [this, round2_intCast]
  exact ⟨by norm_num, hdur, by rw [hdur]; norm_num, hamt⟩

/-- C10 amended: for entryTime strictly later than `now`, the calculator
neither clamps nor rejects: durationHours is the rounded (negative)
elapsed-hours value, which is ≤ 0 — and strictly negative once the
elapsed time is below −18 seconds (−1/200 hour) — and the amount is the
full first-hour minimum `round2 hourlyRate`. -/
theorem C10_future_entry (entry_time hourly_rate now : ℚ) (h : now < entry_time) :
    (calculate_parking_fee entry_time hourly_rate now).1
        = round2 ((now - entry_time) / 3600) ∧
    (calculate_parking_fee entry_time hourly_rate now).1 ≤ 0 ∧
    ((now - entry_time) / 3600 < -(1/200) →
      (calculate_parking_fee entry_time hourly_rate now).1 < 0) ∧
    (calculate_parking_fee entry_time hourly_rate now).2 = round2 hourly_rate := by
  have hneg : (now - entry_time) / 3600 < 0 :=
    div_neg_of_neg_of_pos (by linarith) (by norm_num)
  have hlt1 : (now - entry_time) / 3600 < 1 := lt_trans hneg one_pos
  refine ⟨?_, ?_, ?_, ?_⟩
  · simp only [calculate_parking_fee]
  · exact round2_nonpos hneg
  · intro hsmall
    exact round2_neg hsmall
  · simp only [calculate_parking_fee, if_pos hlt1, one_mul]

/-- Witness for the amended C10 at entry 7200, rate 20, now 0 (two hours in
the future): durationHours is strictly negative and the amount is the
first-hour charge. -/
theorem C10_future_entry_witness :
    (calculate_parking_fee 7200 20 0).1 = round2 (((0:ℚ) - 7200) / 3600) ∧
    (calculate_parking_fee 7200 20 0).1 ≤ 0 ∧
    (((0:ℚ) - 7200) / 3600 < -(1/200) → (calculate_parking_fee 7200 20 0).1 < 0) ∧
    (calculate_parking_fee 7200 20 0).2 = round2 20 :=
  C10_future_entry 7200 20 0 (by norm_num)

/-! ### C7: delete protection for vehicle types -/

/-- C7: given that the rate-table id resolves to record `r`, deleting the
vehicle type fails with a conflict (400) and leaves the state unchanged
exactly when some open session references `r.vehicle_type`; otherwise it
succeeds, removes the rate record, and leaves the session ledger
untouched. -/
theorem C7_delete_protection (db : DB) (id : ℕ) (r : Rate)
    (hfind : db.rates.find? (fun x => x.id == id) = some r) :
    ((∃ s ∈ db.sessions, s.exit_time = none ∧ s.vehicle_type = r.vehicle_type) →
      delete_vehicle_type db id =
        ({ status := 400,
           body := [("error", JVal.jstr "Cannot delete: active sessions exist")] }, db)) ∧
    ((¬ ∃ s ∈ db.sessions, s.exit_time = none ∧ s.vehicle_type = r.vehicle_type) →
      delete_vehicle_type db id =
        ({ status := 200,
           body := [("message", JVal.jstr "Vehicle type deleted successfully")] },
         { rates := db.rates.eraseP (fun x => x.id == id), sessions := db.sessions })) := by
  have hiff : 0 < ((get_active_sessions db).filter
      (fun s => s.vehicle_type == r.vehicle_type)).length ↔
      (∃ s ∈ db.sessions, s.exit_time = none ∧ s.vehicle_type = r.vehicle_type) := by
    constructor
    · intro hpos
      rcases List.exists_mem_of_length_pos hpos with ⟨s, hs⟩
      rw [List.mem_filter] at hs
      rcases hs with ⟨hs1, hs2⟩
      rw [get_active_sessions, List.mem_filter] at hs1
      exact ⟨s, hs1.1, Option.isNone_iff_eq_none.mp hs1.2, by simpa [beq_iff_eq] using hs2⟩
    · rintro ⟨s, hs, hopen, hvt⟩
      apply List.length_pos.mpr
      intro hnil
      have hmem : s ∈ (get_active_sessions db).filter
          (fun s => s.vehicle_type == r.vehicle_type) := by
        rw [List.mem_filter, get_active_sessions, List.mem_filter]
        exact ⟨⟨hs, Option.isNone_iff_eq_none.mpr hopen⟩, by simp [hvt]⟩
      rw [hnil] at hmem
      cases hmem
  constructor
  · intro hex
    unfold delete_vehicle_type
    rw [hfind]
    simp only [if_pos (hiff.mpr hex)]
  · intro hnex
    unfold delete_vehicle_type
    rw [hfind]
    have : ¬ (0 < ((get_active_sessions db).filter
        (fun s => s.vehicle_type == r.vehicle_type)).length) := fun hpos =>
      hnex (hiff.mp hpos)
    simp only [if_neg this]

/-- Witness for C7: deleting the "Auto" rate from `dbClosed` (whose only
session is closed) succeeds and leaves the session ledger unchanged. -/
theorem C7_delete_protection_witness :
    delete_vehicle_type dbClosed 1 =
      ({ status := 200,
         body := [("message", JVal.jstr "Vehicle type deleted successfully")] },
       { rates := dbClosed.rates.eraseP (fun x => x.id == 1),
         sessions := dbClosed.sessions }) :=
  (C7_delete_protection dbClosed 1 { id := 1, vehicle_type := "Auto", hourly_rate := 20 }
      (by simp [dbClosed, initialDB])).2
    (by
      rintro ⟨s, hs, hopen, hvt⟩
      simp only [dbClosed, sessC] at hs
      rw [List.mem_singleton] at hs
      subst hs
      simp at hopen)

/-! ### Ledger invariants along the request step relation -/

theorem create_vehicle_type_sessions (db : DB) (vt : Option String) (hr : Option ℚ)
    (newId : ℕ) : (create_vehicle_type db vt hr newId).2.sessions = db.sessions := by
  unfold create_vehicle_type
  split
  · rfl
  · split <;> rfl

theorem update_vehicle_type_sessions (db : DB) (id : ℕ) (vt : Option String)
    (hr : Option ℚ) : (update_vehicle_type db id vt hr).2.sessions = db.sessions := by
  unfold update_vehicle_type
  split
  · rfl
  · dsimp only
    split <;> rfl

theorem delete_vehicle_type_sessions (db : DB) (id : ℕ) :
    (delete_vehicle_type db id).2.sessions = db.sessions := by
  unfold delete_vehicle_type
  split
  · rfl
  · dsimp only
    split <;> rfl

/-- The C5 invariant: a session's exit_time is NULL iff its amount_paid is
NULL. -/
def SessionInv (db : DB) : Prop :=
  ∀ s ∈ db.sessions, s.exit_time = none ↔ s.amount_paid = none

theorem sessionInv_of_sessions_eq {db db' : DB} (h : db'.sessions = db.sessions)
    (hinv : SessionInv db) : SessionInv db' := by
  intro s hs
  rw [h] at hs
  exact hinv s hs

theorem sessionInv_map {db : DB} (u : Session → Session)
    (hu : ∀ s, (s.exit_time = none ↔ s.amount_paid = none) →
      ((u s).exit_time = none ↔ (u s).amount_paid = none))
    (h : SessionInv db) : SessionInv { db with sessions := db.sessions.map u } := by
  intro s hs
  rcases List.mem_map.mp hs with ⟨x, hx, rfl⟩
  exact hu x (h x hx)

theorem sessionInv_entry (fromiso : String → Option ℚ) (db : DB) (req : EntryRequest)
    (now : ℚ) (token : String) (h : SessionInv db) :
    SessionInv (entry fromiso db req now token).2 := by
  unfold entry
  split
  · exact h
  · intro s hs
    rcases List.mem_append.mp hs with hmem | hmem
    · exact h s hmem
    · rw [List.mem_singleton] at hmem
      subst hmem
      simp

theorem sessionInv_update_session (fromiso : String → Option ℚ) (db : DB)
    (token : String) (nt : Option String) (now : ℚ) (h : SessionInv db) :
    SessionInv (update_session fromiso db token nt now).2 := by
  unfold update_session
  split
  · exact h
  · split
    · exact h
    · split
      · exact h
      · split
        · exact h
        · split
          · exact h
          · exact sessionInv_map _ (fun s hs => by
              by_cases hb : (s.token == token) = true <;> simp [hb, hs]) h

theorem sessionInv_exit_parking (db : DB) (token : String) (now : ℚ)
    (resp : HttpResp) (db' : DB) (hx : exit_parking db token now = some (resp, db'))
    (h : SessionInv db) : SessionInv db' := by
  unfold exit_parking at hx
  split at hx
  · cases hx
    exact h
  · split at hx
    · cases hx
      exact h
    · split at hx
      · cases hx
      · cases hx
        exact sessionInv_map _ (fun s hs => by
          by_cases hb : (s.token == token) = true <;> simp [hb, hs]) h

theorem sessionInv_step {db db' : DB} (hstep : Step db db') (h : SessionInv db) :
    SessionInv db' := by
  cases hstep with
  | entry fromiso db req now token hfresh => exact sessionInv_entry _ _ _ _ _ h
  | update_session fromiso db token nt now => exact sessionInv_update_session _ _ _ _ _ h
  | exit_parking db token now resp db' hx => exact sessionInv_exit_parking _ _ _ _ _ hx h
  | create_vehicle_type db vt hr newId =>
      exact sessionInv_of_sessions_eq (create_vehicle_type_sessions _ _ _ _) h
  | update_vehicle_type db id vt hr =>
      exact sessionInv_of_sessions_eq (update_vehicle_type_sessions _ _ _ _) h
  | delete_vehicle_type db id =>
      exact sessionInv_of_sessions_eq (delete_vehicle_type_sessions _ _) h

theorem reachable_sessionInv {db : DB} (h : Reachable db) : SessionInv db := by
  induction h with
  | refl => intro s hs; cases hs
  | tail hsteps hstep ih => exact sessionInv_step hstep ih

/-- Primary-key invariant: session tokens are pairwise distinct. -/
def TokensNodup (db : DB) : Prop := (db.sessions.map (fun s => s.token)).Nodup

theorem tokensNodup_of_sessions_eq {db db' : DB} (h : db'.sessions = db.sessions)
    (hnd : TokensNodup db) : TokensNodup db' := by
  unfold TokensNodup
  rw [h]
  exact hnd

theorem tokens_map_eq {l : List Session} (u : Session → Session)
    (hu : ∀ s, (u s).token = s.token) :
    (l.map u).map (fun s => s.token) = l.map (fun s => s.token) := by
  rw [List.map_map]
  exact List.map_congr_left (fun s _ => hu s)

theorem tokensNodup_entry (fromiso : String → Option ℚ) (db : DB) (req : EntryRequest)
    (now : ℚ) (token : String) (hfresh : ∀ s ∈ db.sessions, s.token ≠ token)
    (hnd : TokensNodup db) : TokensNodup (entry fromiso db req now token).2 := by
  unfold entry
  split
  · exact hnd
  · unfold TokensNodup
    simp only [List.map_append, List.map_cons, List.map_nil]
    rw [List.nodup_append]
    refine ⟨hnd, List.nodup_singleton _, ?_⟩
    intro a ha hb
    rcases List.mem_map.mp ha with ⟨s, hs, rfl⟩
    rw [List.mem_singleton] at hb
    exact hfresh s hs hb

theorem tokensNodup_update_session (fromiso : String → Option ℚ) (db : DB)
    (token : String) (nt : Option String) (now : ℚ) (hnd : TokensNodup db) :
    TokensNodup (update_session fromiso db token nt now).2 := by
  unfold update_session
  split
  · exact hnd
  · split
    · exact hnd
    · split
      · exact hnd
      · split
        · exact hnd
        · split
          · exact hnd
          · unfold TokensNodup
            rw [tokens_map_eq _ (fun s => by
              by_cases hb : (s.token == token) = true <;> simp [hb])]
            exact hnd

theorem tokensNodup_exit_parking (db : DB) (token : String) (now : ℚ)
    (resp : HttpResp) (db' : DB) (hx : exit_parking db token now = some (resp, db'))
    (hnd : TokensNodup db) : TokensNodup db' := by
  unfold exit_parking at hx
  split at hx
  · cases hx
    exact hnd
  · split at hx
    · cases hx
      exact hnd
    · split at hx
      · cases hx
      · cases hx
        unfold TokensNodup
        rw [tokens_map_eq _ (fun s => by
          by_cases hb : (s.token == token) = true <;> simp [hb])]
        exact hnd

theorem tokensNodup_step {db db' : DB} (hstep : Step db db') (hnd : TokensNodup db) :
    TokensNodup db' := by
  cases hstep with
  | entry fromiso db req now token hfresh => exact tokensNodup_entry _ _ _ _ _ hfresh hnd
  | update_session fromiso db token nt now => exact tokensNodup_update_session _ _ _ _ _ hnd
  | exit_parking db token now resp db' hx => exact tokensNodup_exit_parking _ _ _ _ _ hx hnd
  | create_vehicle_type db vt hr newId =>
      exact tokensNodup_of_sessions_eq (create_vehicle_type_sessions _ _ _ _) hnd
  | update_vehicle_type db id vt hr =>
      exact tokensNodup_of_sessions_eq (update_vehicle_type_sessions _ _ _ _) hnd
  | delete_vehicle_type db id =>
      exact tokensNodup_of_sessions_eq (delete_vehicle_type_sessions _ _) hnd

theorem reachable_tokensNodup {db : DB} (h : Reachable db) : TokensNodup db := by
  induction h with
  | refl => simp [TokensNodup, initialDB]
  | tail hsteps hstep ih => exact tokensNodup_step hstep ih

/-- With distinct tokens, two sessions of the ledger sharing a token are the
same record. -/
theorem eq_of_token_eq {l : List Session} (hnd : (l.map (fun s => s.token)).Nodup)
    {a b : Session} (ha : a ∈ l) (hb : b ∈ l) (hab : a.token = b.token) : a = b :=
  List.inj_on_of_nodup_map hnd ha hb hab

/-- With distinct tokens, looking a member session up by its token finds
exactly that session. -/
theorem find?_token_of_mem {l : List Session} (hnd : (l.map (fun s => s.token)).Nodup)
    {s : Session} (hs : s ∈ l) : l.find? (fun x => x.token == s.token) = some s := by
  induction l with
  | nil => cases hs
  | cons a l ih =>
    rw [List.map_cons, List.nodup_cons] at hnd
    rcases List.mem_cons.mp hs with rfl | hmem
    · rw [List.find?_cons]
      simp
    · have hne : a.token ≠ s.token := fun he =>
        hnd.1 (he ▸ List.mem_map.mpr ⟨s, hmem, rfl⟩)
      rw [List.find?_cons]
      have hb : (a.token == s.token) = false := by simp [hne]
      rw [hb]
      exact ih hnd.2 hmem

/-- A closed session survives any single request step verbatim. -/
theorem closed_mem_step {db db' : DB} (hstep : Step db db') (hnd : TokensNodup db)
    {s : Session} (hs : s ∈ db.sessions) {t : ℚ} (ht : s.exit_time = some t) :
    s ∈ db'.sessions := by
  cases hstep with
  | entry fromiso db req now token hfresh =>
      unfold entry
      split
      · exact hs
      · exact List.mem_append_left _ hs
  | update_session fromiso db token nt now =>
      unfold update_session
      split
      · exact hs
      · rename_i s0 hf
        split
        · exact hs
        · rename_i hopen
          split
          · exact hs
          · split
            · exact hs
            · split
              · exact hs
              · have hne : s.token ≠ token := by
                  intro he
                  have hs0tok : s0.token = token := by
                    have := List.find?_some hf
                    simpa [beq_iff_eq] using this
                  have : s = s0 := eq_of_token_eq hnd hs
                    (List.mem_of_find?_eq_some hf) (by rw [he, hs0tok])
                  subst this
                  rw [ht] at hopen
                  simp at hopen
                refine List.mem_map.mpr ⟨s, hs, ?_⟩
                simp [hne]
  | exit_parking db token now resp db' hx =>
      unfold exit_parking at hx
      split at hx
      · cases hx
        exact hs
      · rename_i s0 hf
        split at hx
        · cases hx
          exact hs
        · rename_i hopen
          split at hx
          · cases hx
          · cases hx
            have hne : s.token ≠ token := by
              intro he
              have hs0tok : s0.token = token := by
                have := List.find?_some hf
                simpa [beq_iff_eq] using this
              have : s = s0 := eq_of_token_eq hnd hs
                (List.mem_of_find?_eq_some hf) (by rw [he, hs0tok])
              subst this
              rw [ht] at hopen
              simp at hopen
            refine List.mem_map.mpr ⟨s, hs, ?_⟩
            simp [hne]
  | create_vehicle_type db vt hr newId =>
      rw [create_vehicle_type_sessions]
      exact hs
  | update_vehicle_type db id vt hr =>
      rw [update_vehicle_type_sessions]
      exact hs
  | delete_vehicle_type db id =>
      rw [delete_vehicle_type_sessions]
      exact hs

/-! ### A concrete reachable ledger with a closed session -/

/-- Entry request carrying a future-dated explicit entry time (the entry
handler performs no future check). -/
def reqFuture : EntryRequest :=
  { plate := some "FUT", vehicle_type := some "Auto", brand := none, model := none,
    color := none, entry_time := some "2026-01-01T02:00:00" }

/-- The open session created by `reqFuture` at wall-clock time 0 when the
supplied entry time parses to 7200 (two hours in the future). -/
def sessFutOpen : Session :=
  { token := "t8", plate := "FUT", vehicle_type := "Auto", brand := none, model := none,
    color := none, entry_time := 7200, exit_time := none, amount_paid := none }

/-- Ledger after that entry. -/
def dbFut1 : DB := { rates := initialDB.rates, sessions := [sessFutOpen] }

/-- The same session after being closed at time 3600 (one hour before its
recorded entry time), charged the first-hour minimum 20. -/
def sessFut : Session := { sessFutOpen with exit_time := some 3600, amount_paid := some 20 }

/-- Ledger after the close. -/
def dbFut2 : DB := { rates := initialDB.rates, sessions := [sessFut] }

/-- The close response for that session. -/
def respFut : HttpResp :=
  { status := 200,
    body := [("message", JVal.jstr "Exit confirmed"), ("amount_paid", JVal.jnum 20)] }

theorem entry_reqFuture :
    (entry (fun _ => some 7200) initialDB reqFuture 0 "t8").2 = dbFut1 := by
  simp [entry, reqFuture, pyFalsy, initialDB, dbFut1, sessFutOpen]

theorem fee_fut : calculate_parking_fee 7200 20 3600 = (-1, 20) := by
  have h1 : ((3600:ℚ) - 7200) / 3600 = -1 := by norm_num
  have ha : round2 (-1 : ℚ) = -1 := by
    rw [show ((-1 : ℚ)) = ((-1 : ℤ) : ℚ) by norm_num, round2_intCast]
  have hb : round2 ((1 : ℚ) * 20) = 20 := by
    rw [one_mul, show ((20 : ℚ)) = ((20 : ℤ) : ℚ) by norm_num, round2_intCast]
  unfold calculate_parking_fee
  dsimp only
  rw [h1, if_pos (show (-1 : ℚ) < 1 by norm_num), ha, hb]

theorem exit_fut : exit_parking dbFut1 "t8" 3600 = some (respFut, dbFut2) := by
  unfold exit_parking
  simp [dbFut1, sessFutOpen, initialDB, fee_fut, dbFut2, sessFut, respFut, List.find?]

theorem reachable_dbFut2 : Reachable dbFut2 := by
  have h1 : Step initialDB dbFut1 := by
    have h := Step.entry (fun _ => some 7200) initialDB reqFuture 0 "t8"
      (by intro s hs; cases hs)
    rwa [entry_reqFuture] at h
  have h2 : Step dbFut1 dbFut2 :=
    Step.exit_parking dbFut1 "t8" 3600 respFut dbFut2 exit_fut
  exact Relation.ReflTransGen.tail (Relation.ReflTransGen.single h1) h2

/-! ### C5: exitTime null iff amountPaid null, in every reachable state -/

/-- C5: every reachable ledger state satisfies the invariant that a
session's exitTime is null iff its amountPaid is null (Open creates both
null, Close sets both, Edit touches neither, rate operations leave
sessions alone); consequently the active set — the sessions with null
exitTime — is exactly the set of sessions with null amountPaid. -/
theorem C5_null_iff_null (db : DB) (h : Reachable db) :
    SessionInv db ∧
    get_active_sessions db = db.sessions.filter (fun s => s.amount_paid.isNone) := by
  have hinv := reachable_sessionInv h
  refine ⟨hinv, ?_⟩
  unfold get_active_sessions
  apply List.filter_congr
  intro s hs
  have hiff := hinv s hs
  cases hx : s.exit_time <;> cases ha : s.amount_paid <;> simp_all

/-- Witness for C5 on the concrete reachable ledger `dbFut2`. -/
theorem C5_null_iff_null_witness :
    get_active_sessions dbFut2 = dbFut2.sessions.filter (fun s => s.amount_paid.isNone) :=
  (C5_null_iff_null dbFut2 reachable_dbFut2).2

/-! ### C8: persistence of closed sessions -/

/-- C8 counterexample: from the seeded initial state, opening a session
with a future-dated entryTime (7200) and closing it at time 3600
produces a reachable ledger whose closed session has exitTime 3600 NOT
strictly greater than its entryTime 7200 — refuting the claimed strict
inequality. -/
theorem C8_counterexample :
    Reachable dbFut2 ∧ sessFut ∈ dbFut2.sessions ∧ sessFut.exit_time = some 3600 ∧
    sessFut.entry_time = 7200 ∧ ¬ (sessFut.entry_time < 3600) := by
  refine ⟨reachable_dbFut2, by simp [dbFut2], rfl, rfl, ?_⟩
  show ¬ (sessFut.entry_time < 3600)
  simp only [sessFut, sessFutOpen]
  norm_num

/-- C8 amended: a closed session of a reachable ledger remains retrievable
by its token, verbatim (same entryTime, exitTime and amountPaid), after
any further sequence of requests; no strict order between exitTime and
entryTime is guaranteed (the close instant may precede a future-dated
entryTime). -/
theorem C8_closed_session_persistence (db db' : DB) (s : Session) (t : ℚ)
    (hdb : Reachable db) (hrun : Relation.ReflTransGen Step db db')
    (hs : s ∈ db.sessions) (ht : s.exit_time = some t) :
    db'.sessions.find? (fun x => x.token == s.token) = some s := by
  have hmem : s ∈ db'.sessions := by
    induction hrun with
    | refl => exact hs
    | tail h1 h2 ih =>
        exact closed_mem_step h2
          (reachable_tokensNodup (Relation.ReflTransGen.trans hdb h1)) ih ht
  exact find?_token_of_mem
    (reachable_tokensNodup (Relation.ReflTransGen.trans hdb hrun)) hmem

/-- Witness for the amended C8 on the concrete reachable ledger `dbFut2`. -/
theorem C8_closed_session_persistence_witness :
    dbFut2.sessions.find? (fun x => x.token == sessFut.token) = some sessFut :=
  C8_closed_session_persistence dbFut2 dbFut2 sessFut 3600 reachable_dbFut2
    Relation.ReflTransGen.refl (by simp [dbFut2]) rfl

/-! ### Partition lemmas for the dashboard aggregation -/

theorem sum_map_ite_add {β M : Type} [DecidableEq β] [AddCommMonoid M]
    (K : List β) (k0 : β) (c : M) (F : β → M) (hnd : K.Nodup) (hk : k0 ∈ K) :
    (K.map (fun k => if k0 = k then c + F k else F k)).sum = c + (K.map F).sum := by
  induction K with
  | nil => cases hk
  | cons b K ih =>
    rcases List.nodup_cons.mp hnd with ⟨hbK, hnd2⟩
    by_cases hb0 : k0 = b
    · subst hb0
      simp only [List.map_cons, List.sum_cons, if_pos rfl]
      have hrest : K.map (fun k => if k0 = k then c + F k else F k) = K.map F := by
        apply List.map_congr_left
        intro x hx
        rw [if_neg]
        intro hx0
        exact hbK (by rw [hx0]; exact hx)
      rw [hrest]
      simp [add_assoc]
    · have hkK : k0 ∈ K := by
        rcases List.mem_cons.mp hk with h | h
        · exact absurd h hb0
        · exact h
      simp only [List.map_cons, List.sum_cons, if_neg hb0]
      rw [ih hnd2 hkK, add_left_comm]

theorem sum_map_filter_key_partition {α β M : Type} [DecidableEq β] [AddCommMonoid M]
    (key : α → β) (g : α → M) (p : α → Bool) :
    ∀ (l : List α) (K : List β), K.Nodup → (∀ a ∈ l, p a = true → key a ∈ K) →
      (K.map (fun k => ((l.filter (fun x => (key x == k) && p x)).map g).sum)).sum
        = ((l.filter p).map g).sum := by
  intro l
  induction l with
  | nil =>
      intro K _ _
      simp only [List.filter_nil, List.map_nil, List.sum_nil]
      induction K with
      | nil => rfl
      | cons b K ihK => simp [ihK]
  | cons a l ih =>
    intro K hnd hcov
    by_cases hp : p a = true
    · have hmem : key a ∈ K := hcov a (List.mem_cons_self a l) hp
      have hstep : (K.map (fun k =>
            (((a :: l).filter (fun x => (key x == k) && p x)).map g).sum)).sum
          = (K.map (fun k => if key a = k
              then g a + ((l.filter (fun x => (key x == k) && p x)).map g).sum
              else ((l.filter (fun x => (key x == k) && p x)).map g).sum)).sum := by
        apply congrArg
        apply List.map_congr_left
        intro k _
        rw [List.filter_cons]
        by_cases hak : key a = k
        · simp [hak, hp]
        · simp [hak]
      rw [hstep, sum_map_ite_add K (key a) (g a) _ hnd hmem,
        ih K hnd (fun x hx hpx => hcov x (List.mem_cons_of_mem a hx) hpx),
        List.filter_cons, if_pos hp]
      simp
    · have hp2 : p a = false := by
        cases hpa : p a
        · rfl
        · exact absurd hpa hp
      have hstep : (K.map (fun k =>
            (((a :: l).filter (fun x => (key x == k) && p x)).map g).sum)).sum
          = (K.map (fun k =>
              ((l.filter (fun x => (key x == k) && p x)).map g).sum)).sum := by
        apply congrArg
        apply List.map_congr_left
        intro k _
        rw [List.filter_cons]
        simp [hp2]
      rw [hstep, ih K hnd (fun x hx hpx => hcov x (List.mem_cons_of_mem a hx) hpx),
        List.filter_cons]
      simp [hp2]

theorem sum_map_one {α : Type} (l : List α) : (l.map (fun _ => (1 : ℕ))).sum = l.length := by
  induction l with
  | nil => rfl
  | cons a l ih => simp [ih, Nat.add_comm]

theorem length_filter_key_partition {α β : Type} [DecidableEq β]
    (key : α → β) (p : α → Bool) (l : List α) (K : List β) (hnd : K.Nodup)
    (hcov : ∀ a ∈ l, p a = true → key a ∈ K) :
    (K.map (fun k => (l.filter (fun x => (key x == k) && p x)).length)).sum
      = (l.filter p).length := by
  have h := sum_map_filter_key_partition key (fun _ => (1 : ℕ)) p l K hnd hcov
  rw [sum_map_one] at h
  rw [← h]
  apply congrArg
  apply List.map_congr_left
  intro k _
  rw [sum_map_one]

theorem sum_map_filterMap_if {β γ M : Type} [AddCommMonoid M]
    (c : β → Bool) (mk : β → γ) (val : γ → M) (e : β → M)
    (hval : ∀ k, val (mk k) = e k) :
    ∀ K : List β, (∀ k ∈ K, c k = false → e k = 0) →
      ((K.filterMap (fun k => if c k then some (mk k) else none)).map val).sum
        = (K.map e).sum := by
  intro K
  induction K with
  | nil => intro _; rfl
  | cons b K ih =>
    intro hzero
    have ihK := ih (fun k hk hck => hzero k (List.mem_cons_of_mem b hk) hck)
    by_cases hc : c b = true
    · rw [List.filterMap_cons]
      simp only [hc, if_true]
      rw [List.map_cons, List.sum_cons, hval, List.map_cons, List.sum_cons, ihK]
    · have hc2 : c b = false := by
        cases hcb : c b
        · rfl
        · exact absurd hcb hc
      rw [List.filterMap_cons]
      simp only [hc2, Bool.false_eq_true, if_false]
      rw [ihK, List.map_cons, List.sum_cons,
        hzero b (List.mem_cons_self b K) hc2, zero_add]

/-! ### C6: dashboard aggregation identity -/

/-- Ledger-wide property that every stored amount is a whole number of
cents; every reachable state satisfies it because `exit_parking` only
stores `round2` results. -/
def CentsInv (db : DB) : Prop :=
  ∀ s ∈ db.sessions, ∀ a, s.amount_paid = some a → IsCents a

theorem isCents_round2 (q : ℚ) : IsCents (round2 q) := by
  refine isCents_iff.mpr ⟨roundHalfEven (q * 100), ?_⟩
  unfold round2
  field_simp

theorem fee_snd_isCents (e r t : ℚ) : IsCents (calculate_parking_fee e r t).2 := by
  unfold calculate_parking_fee
  exact isCents_round2 _

theorem centsInv_of_sessions_eq {db db' : DB} (h : db'.sessions = db.sessions)
    (hinv : CentsInv db) : CentsInv db' := by
  intro s hs
  rw [h] at hs
  exact hinv s hs

theorem centsInv_map {db : DB} (u : Session → Session)
    (hu : ∀ s, (∀ a, s.amount_paid = some a → IsCents a) →
      (∀ a, (u s).amount_paid = some a → IsCents a))
    (h : CentsInv db) : CentsInv { db with sessions := db.sessions.map u } := by
  intro s hs
  rcases List.mem_map.mp hs with ⟨x, hx, rfl⟩
  exact hu x (h x hx)

theorem centsInv_step {db db' : DB} (hstep : Step db db') (h : CentsInv db) :
    CentsInv db' := by
  cases hstep with
  | entry fromiso db req now token hfresh =>
      unfold entry
      split
      · exact h
      · intro s hs
        rcases List.mem_append.mp hs with hmem | hmem
        · exact h s hmem
        · rw [List.mem_singleton] at hmem
          subst hmem
          intro a ha
          cases ha
  | update_session fromiso db token nt now =>
      unfold update_session
      split
      · exact h
      · split
        · exact h
        · split
          · exact h
          · split
            · exact h
            · split
              · exact h
              · exact centsInv_map _ (fun s hs => by
                  by_cases hb : (s.token == token) = true <;> simp [hb] <;> exact hs) h
  | exit_parking db token now resp db' hx =>
      unfold exit_parking at hx
      split at hx
      · cases hx
        exact h
      · split at hx
        · cases hx
          exact h
        · split at hx
          · cases hx
          · cases hx
            refine centsInv_map _ (fun s hs => ?_) h
            by_cases hb : (s.token == token) = true
            · simp only [hb, if_true]
              intro a ha
              rw [← Option.some.inj ha]
              exact fee_snd_isCents _ _ _
            · simp only [hb, Bool.false_eq_true, if_false]
              exact hs
  | create_vehicle_type db vt hr newId =>
      exact centsInv_of_sessions_eq (create_vehicle_type_sessions _ _ _ _) h
  | update_vehicle_type db id vt hr =>
      exact centsInv_of_sessions_eq (update_vehicle_type_sessions _ _ _ _) h
  | delete_vehicle_type db id =>
      exact centsInv_of_sessions_eq (delete_vehicle_type_sessions _ _) h

theorem reachable_centsInv {db : DB} (h : Reachable db) : CentsInv db := by
  induction h with
  | refl => intro s hs; cases hs
  | tail hsteps hstep ih => exact centsInv_step hstep ih

theorem exitedOn_iff {s : Session} {target : ℤ} :
    exitedOn s target = true ↔ ∃ t, s.exit_time = some t ∧ dateOf t = target := by
  unfold exitedOn
  cases hx : s.exit_time with
  | none => simp
  | some t => simp [beq_iff_eq]

set_option maxHeartbeats 800000 in
/-- C6: for every ledger whose stored amounts are whole cents (an invariant
of all reachable states, `reachable_centsInv`) and every target date, the
dashboard report satisfies the aggregation identity: per-type entries sum
exactly to entriesCount, exits to exitsCount and revenue to totalRevenue
(exact equality, hence within 1-cent tolerance), and statsByType contains
exactly the vehicle types with at least one entry or exit on that date. -/
theorem C6_aggregation_identity (db : DB) (target : ℤ) (h : CentsInv db) :
    ((dashboard db target).stats_by_type.map (fun st => st.entries)).sum
        = (dashboard db target).entries_count ∧
    ((dashboard db target).stats_by_type.map (fun st => st.exits)).sum
        = (dashboard db target).exits_count ∧
    ((dashboard db target).stats_by_type.map (fun st => st.revenue)).sum
        = (dashboard db target).total_revenue ∧
    (∀ v : String,
      (∃ st ∈ (dashboard db target).stats_by_type, st.vehicle_type = v) ↔
      (∃ s ∈ db.sessions, s.vehicle_type = v ∧
        (dateOf s.entry_time = target ∨
          ∃ t, s.exit_time = some t ∧ dateOf t = target))) := by
  have hnd : ((db.sessions.map (fun s => s.vehicle_type)).dedup).Nodup :=
    List.nodup_dedup _
  have hcovAll : ∀ s ∈ db.sessions,
      s.vehicle_type ∈ (db.sessions.map (fun s => s.vehicle_type)).dedup :=
    fun s hs => List.mem_dedup.mpr (List.mem_map_of_mem _ hs)
  have hstats : (dashboard db target).stats_by_type
      = ((db.sessions.map (fun s => s.vehicle_type)).dedup).filterMap (fun vtype =>
          if 0 < (db.sessions.filter
                (fun s => s.vehicle_type == vtype && dateOf s.entry_time == target)).length
              || 0 < (db.sessions.filter
                (fun s => s.vehicle_type == vtype && exitedOn s target)).length
          then some { vehicle_type := vtype,
                      entries := (db.sessions.filter
                        (fun s => s.vehicle_type == vtype
                          && dateOf s.entry_time == target)).length,
                      exits := (db.sessions.filter
                        (fun s => s.vehicle_type == vtype && exitedOn s target)).length,
                      revenue := round2 (((db.sessions.filter
                        (fun s => s.vehicle_type == vtype && exitedOn s target)).map
                          (fun s => s.amount_paid.getD 0)).sum) }
          else none) := rfl
  have hec : (db.sessions.filter (fun s => dateOf s.entry_time == target)).length
      = (dashboard db target).entries_count := rfl
  have hxc : (db.sessions.filter (fun s => exitedOn s target)).length
      = (dashboard db target).exits_count := rfl
  have htr : (dashboard db target).total_revenue
      = round2 (((db.sessions.filter (fun s => exitedOn s target)).map
          (fun s => s.amount_paid.getD 0)).sum) := rfl
  have hcentsSum : ∀ L : List Session, (∀ s ∈ L, s ∈ db.sessions) →
      IsCents ((L.map (fun s => s.amount_paid.getD 0)).sum) := by
    intro L hL
    apply isCents_sum
    intro q hq
    rcases List.mem_map.mp hq with ⟨s, hsL, rfl⟩
    cases ha : s.amount_paid with
    | none => simpa [ha] using isCents_zero
    | some a =>
        have hca := h s (hL s hsL) a ha
        simpa [ha] using hca
  have hzcomm : ∀ k, (decide (0 < (db.sessions.filter
        (fun s => s.vehicle_type == k && dateOf s.entry_time == target)).length)
      || decide (0 < (db.sessions.filter
        (fun s => s.vehicle_type == k && exitedOn s target)).length)) = false →
      (db.sessions.filter
        (fun s => s.vehicle_type == k && dateOf s.entry_time == target)).length = 0 ∧
      (db.sessions.filter
        (fun s => s.vehicle_type == k && exitedOn s target)).length = 0 := by
    intro k hck
    simpa only [Bool.or_eq_false_iff, decide_eq_false_iff_not, not_lt,
      Nat.le_zero] using hck
  -- entries
  have hmainE : ((((db.sessions.map (fun s => s.vehicle_type)).dedup).filterMap (fun vtype =>
          if 0 < (db.sessions.filter
                (fun s => s.vehicle_type == vtype && dateOf s.entry_time == target)).length
              || 0 < (db.sessions.filter
                (fun s => s.vehicle_type == vtype && exitedOn s target)).length
          then some ({ vehicle_type := vtype,
                       entries := (db.sessions.filter
                         (fun s => s.vehicle_type == vtype
                           && dateOf s.entry_time == target)).length,
                       exits := (db.sessions.filter
                         (fun s => s.vehicle_type == vtype && exitedOn s target)).length,
                       revenue := round2 (((db.sessions.filter
                         (fun s => s.vehicle_type == vtype && exitedOn s target)).map
                           (fun s => s.amount_paid.getD 0)).sum) } : TypeStats)
          else none)).map (fun st => st.entries)).sum
      = (((db.sessions.map (fun s => s.vehicle_type)).dedup).map
          (fun vtype => (db.sessions.filter
            (fun s => s.vehicle_type == vtype
              && dateOf s.entry_time == target)).length)).sum :=
    sum_map_filterMap_if _ _ _ _ (fun k => rfl) _
      (fun k _ hck => (hzcomm k hck).1)
  have hpartE : (((db.sessions.map (fun s => s.vehicle_type)).dedup).map
        (fun vtype => (db.sessions.filter
          (fun s => s.vehicle_type == vtype
            && dateOf s.entry_time == target)).length)).sum
      = (db.sessions.filter (fun s => dateOf s.entry_time == target)).length :=
    length_filter_key_partition (fun s => s.vehicle_type)
      (fun s => dateOf s.entry_time == target) db.sessions
      ((db.sessions.map (fun s => s.vehicle_type)).dedup) hnd
      (fun a ha _ => hcovAll a ha)
  have hentries : ((dashboard db target).stats_by_type.map (fun st => st.entries)).sum
      = (dashboard db target).entries_count := by
    rw [hstats]
    exact hmainE.trans (hpartE.trans hec)
  -- exits
  have hmainX : ((((db.sessions.map (fun s => s.vehicle_type)).dedup).filterMap (fun vtype =>
          if 0 < (db.sessions.filter
                (fun s => s.vehicle_type == vtype && dateOf s.entry_time == target)).length
              || 0 < (db.sessions.filter
                (fun s => s.vehicle_type == vtype && exitedOn s target)).length
          then some ({ vehicle_type := vtype,
                       entries := (db.sessions.filter
                         (fun s => s.vehicle_type == vtype
                           && dateOf s.entry_time == target)).length,
                       exits := (db.sessions.filter
                         (fun s => s.vehicle_type == vtype && exitedOn s target)).length,
                       revenue := round2 (((db.sessions.filter
                         (fun s => s.vehicle_type == vtype && exitedOn s target)).map
                           (fun s => s.amount_paid.getD 0)).sum) } : TypeStats)
          else none)).map (fun st => st.exits)).sum
      = (((db.sessions.map (fun s => s.vehicle_type)).dedup).map
          (fun vtype => (db.sessions.filter
            (fun s => s.vehicle_type == vtype && exitedOn s target)).length)).sum :=
    sum_map_filterMap_if _ _ _ _ (fun k => rfl) _
      (fun k _ hck => (hzcomm k hck).2)
  have hpartX : (((db.sessions.map (fun s => s.vehicle_type)).dedup).map
        (fun vtype => (db.sessions.filter
          (fun s => s.vehicle_type == vtype && exitedOn s target)).length)).sum
      = (db.sessions.filter (fun s => exitedOn s target)).length :=
    length_filter_key_partition (fun s => s.vehicle_type)
      (fun s => exitedOn s target) db.sessions
      ((db.sessions.map (fun s => s.vehicle_type)).dedup) hnd
      (fun a ha _ => hcovAll a ha)
  have hexits : ((dashboard db target).stats_by_type.map (fun st => st.exits)).sum
      = (dashboard db target).exits_count := by
    rw [hstats]
    exact hmainX.trans (hpartX.trans hxc)
  -- revenue
  have hzR : ∀ k ∈ (db.sessions.map (fun s => s.vehicle_type)).dedup,
      (decide (0 < (db.sessions.filter
          (fun s => s.vehicle_type == k && dateOf s.entry_time == target)).length)
        || decide (0 < (db.sessions.filter
          (fun s => s.vehicle_type == k && exitedOn s target)).length)) = false →
      round2 (((db.sessions.filter
        (fun s => s.vehicle_type == k && exitedOn s target)).map
          (fun s => s.amount_paid.getD 0)).sum) = 0 := by
    intro k _ hck
    rw [List.length_eq_zero.mp (hzcomm k hck).2]
    simp [round2_zero]
  have hmainR : ((((db.sessions.map (fun s => s.vehicle_type)).dedup).filterMap (fun vtype =>
          if 0 < (db.sessions.filter
                (fun s => s.vehicle_type == vtype && dateOf s.entry_time == target)).length
              || 0 < (db.sessions.filter
                (fun s => s.vehicle_type == vtype && exitedOn s target)).length
          then some ({ vehicle_type := vtype,
                       entries := (db.sessions.filter
                         (fun s => s.vehicle_type == vtype
                           && dateOf s.entry_time == target)).length,
                       exits := (db.sessions.filter
                         (fun s => s.vehicle_type == vtype && exitedOn s target)).length,
                       revenue := round2 (((db.sessions.filter
                         (fun s => s.vehicle_type == vtype && exitedOn s target)).map
                           (fun s => s.amount_paid.getD 0)).sum) } : TypeStats)
          else none)).map (fun st => st.revenue)).sum
      = (((db.sessions.map (fun s => s.vehicle_type)).dedup).map
          (fun vtype => round2 (((db.sessions.filter
            (fun s => s.vehicle_type == vtype && exitedOn s target)).map
              (fun s => s.amount_paid.getD 0)).sum))).sum :=
    sum_map_filterMap_if _ _ _ _ (fun k => rfl) _ hzR
  have hcongr : ((db.sessions.map (fun s => s.vehicle_type)).dedup).map
        (fun vtype => round2 (((db.sessions.filter
          (fun s => s.vehicle_type == vtype && exitedOn s target)).map
            (fun s => s.amount_paid.getD 0)).sum))
      = ((db.sessions.map (fun s => s.vehicle_type)).dedup).map
        (fun vtype => ((db.sessions.filter
          (fun s => s.vehicle_type == vtype && exitedOn s target)).map
            (fun s => s.amount_paid.getD 0)).sum) :=
    List.map_congr_left (fun v _ =>
      round2_eq_self_of_isCents
        (hcentsSum _ (fun s hs => (List.mem_filter.mp hs).1)))
  have hpartR : (((db.sessions.map (fun s => s.vehicle_type)).dedup).map
        (fun vtype => ((db.sessions.filter
          (fun s => s.vehicle_type == vtype && exitedOn s target)).map
            (fun s => s.amount_paid.getD 0)).sum)).sum
      = ((db.sessions.filter (fun s => exitedOn s target)).map
          (fun s => s.amount_paid.getD 0)).sum :=
    sum_map_filter_key_partition (fun s => s.vehicle_type)
      (fun s => s.amount_paid.getD 0) (fun s => exitedOn s target) db.sessions
      ((db.sessions.map (fun s => s.vehicle_type)).dedup) hnd
      (fun a ha _ => hcovAll a ha)
  have htot : (dashboard db target).total_revenue
      = ((db.sessions.filter (fun s => exitedOn s target)).map
          (fun s => s.amount_paid.getD 0)).sum :=
    htr.trans (round2_eq_self_of_isCents
      (hcentsSum _ (fun s hs => (List.mem_filter.mp hs).1)))
  have hrev : ((dashboard db target).stats_by_type.map (fun st => st.revenue)).sum
      = (dashboard db target).total_revenue := by
    rw [hstats]
    exact hmainR.trans ((congrArg List.sum hcongr).trans (hpartR.trans htot.symm))
  refine ⟨hentries, hexits, hrev, ?_⟩
  intro v
  rw [hstats]
  constructor
  · rintro ⟨st, hstm, hstv⟩
    rcases List.mem_filterMap.mp hstm with ⟨k, hkK, hsome⟩
    by_cases hc : (decide (0 < (db.sessions.filter
          (fun s => s.vehicle_type == k && dateOf s.entry_time == target)).length)
        || decide (0 < (db.sessions.filter
          (fun s => s.vehicle_type == k && exitedOn s target)).length)) = true
    · rw [if_pos hc] at hsome
      have hst := Option.some.inj hsome
      have hkv : k = v := by rw [← hstv, ← hst]
      subst hkv
      rw [Bool.or_eq_true] at hc
      rcases hc with hc | hc
      · rw [decide_eq_true_eq] at hc
        rcases List.exists_mem_of_length_pos hc with ⟨s, hsf⟩
        rcases List.mem_filter.mp hsf with ⟨hsl, hcond⟩
        rw [Bool.and_eq_true, beq_iff_eq, beq_iff_eq] at hcond
        exact ⟨s, hsl, hcond.1, Or.inl hcond.2⟩
      · rw [decide_eq_true_eq] at hc
        rcases List.exists_mem_of_length_pos hc with ⟨s, hsf⟩
        rcases List.mem_filter.mp hsf with ⟨hsl, hcond⟩
        rw [Bool.and_eq_true, beq_iff_eq] at hcond
        exact ⟨s, hsl, hcond.1, Or.inr (exitedOn_iff.mp hcond.2)⟩
    · rw [if_neg hc] at hsome
      cases hsome
  · rintro ⟨s, hsl, hsv, hact⟩
    have hvK : v ∈ (db.sessions.map (fun s => s.vehicle_type)).dedup := by
      rw [← hsv]
      exact hcovAll s hsl
    have hc : (decide (0 < (db.sessions.filter
          (fun x => x.vehicle_type == v && dateOf x.entry_time == target)).length)
        || decide (0 < (db.sessions.filter
          (fun x => x.vehicle_type == v && exitedOn x target)).length)) = true := by
      rw [Bool.or_eq_true]
      rcases hact with hent | hext
      · left
        rw [decide_eq_true_eq]
        exact List.length_pos_of_mem
          (List.mem_filter.mpr ⟨hsl, by simp [hsv, hent]⟩)
      · right
        rw [decide_eq_true_eq]
        exact List.length_pos_of_mem
          (List.mem_filter.mpr ⟨hsl, by simp [hsv, exitedOn_iff.mpr hext]⟩)
    refine ⟨({ vehicle_type := v,
               entries := (db.sessions.filter
                 (fun s => s.vehicle_type == v && dateOf s.entry_time == target)).length,
               exits := (db.sessions.filter
                 (fun s => s.vehicle_type == v && exitedOn s target)).length,
               revenue := round2 (((db.sessions.filter
                 (fun s => s.vehicle_type == v && exitedOn s target)).map
                   (fun s => s.amount_paid.getD 0)).sum) } : TypeStats), ?_, rfl⟩
    apply List.mem_filterMap.mpr
    exact ⟨v, hvK, by rw [if_pos hc]⟩

/-- Witness for C6 on the reachable concrete ledger `dbFut2` (whose stored
amount 20 is a whole number of cents) at target date 0. -/
theorem C6_aggregation_identity_witness :
    ((dashboard dbFut2 0).stats_by_type.map (fun st => st.revenue)).sum
      = (dashboard dbFut2 0).total_revenue :=
  (C6_aggregation_identity dbFut2 0 (reachable_centsInv reachable_dbFut2)).2.2.1
